import Mathlib

/-!
# GLprimer matrix routines (lab3 and lab4)

A shallow embedding of the hand-written 4x4 matrix routines of
`src/lab3/GLprimer.cpp` and `src/lab4/GLprimer.cpp` (the two copies of
`mat4mult`, `mat4identity`, `mat4rotX/Y/Z`, `mat4scale` and `mat4translate`
are textually identical).  `mat4perspective` of lab4 is not embedded: what it
stores is decided by IEEE division (infinities and NaN at a zero denominator)
and by rounding, which exact scalars do not express.

Modelling decisions:

* `float` values are modelled by exact scalars of a type `α` (a ring, or a
  field where the code has decimal literals); rounding, infinities and NaN are
  outside the model.  Theorems about trigonometry instantiate `α` with `ℝ`.
* A `float M[]` parameter is a pointer.  Memory is a map from addresses to
  scalars, a pointer is the address of the first element and `M[i]` is the
  cell at address `M + i`.  Every routine is a memory transformer, so two
  parameters that name the same buffer really are the same cells.
* `cos` and `sin` come from the C math library; the routines take them as
  parameters.
* `for (int i = 0; i < n; ++i)` is `forLoop n`, which runs the body for
  `i = 0, 1, ..., n - 1` in that order.
-/

namespace GLprimer

/-- Memory of scalars: the value stored at each address. -/
abbrev Mem (α : Type) := Nat → α

/-- The assignment `*(a) = v`: memory after writing `v` at address `a`. -/
def store {α : Type} (m : Mem α) (a : Nat) (v : α) : Mem α :=
  fun b => if b = a then v else m b

/-- The loop `for (int i = 0; i < n; ++i) body`, threading the state `s`. -/
def forLoop {σ : Type} (n : Nat) (body : Nat → σ → σ) (s : σ) : σ :=
  match n with
  | 0 => s
  | k + 1 => body k (forLoop k body s)

/-- The routine `mat4mult(M1, M2, Mout)`.  `Mtemp` is the local 16-element
array (its cells, indexed from 0, are distinct from all of memory; its
initial content is never read and is taken to be 0).  The first loop fills
`Mtemp` from `M1` and `M2`, the second copies `Mtemp` to `Mout`. -/
def mat4mult {α : Type} [Ring α] (m : Mem α) (M1 M2 Mout : Nat) : Mem α :=
  let Mtemp : Mem α := forLoop 16 (fun i Mtemp =>
    if i < 4 then
      store Mtemp i
        (m (M1 + i) * m (M2 + 0) + m (M1 + (i + 4)) * m (M2 + 1)
          + m (M1 + (i + 8)) * m (M2 + 2) + m (M1 + (i + 12)) * m (M2 + 3))
    else if i < 8 then
      store Mtemp i
        (m (M1 + (i - 4)) * m (M2 + 4) + m (M1 + i) * m (M2 + 5)
          + m (M1 + (i + 4)) * m (M2 + 6) + m (M1 + (i + 8)) * m (M2 + 7))
    else if i < 12 then
      store Mtemp i
        (m (M1 + (i - 8)) * m (M2 + 8) + m (M1 + (i - 4)) * m (M2 + 9)
          + m (M1 + i) * m (M2 + 10) + m (M1 + (i + 4)) * m (M2 + 11))
    else
      store Mtemp i
        (m (M1 + (i - 12)) * m (M2 + 12) + m (M1 + (i - 8)) * m (M2 + 13)
          + m (M1 + (i - 4)) * m (M2 + 14) + m (M1 + i) * m (M2 + 15)))
    (fun _ => 0)
  forLoop 16 (fun i mem => store mem (Mout + i) (Mtemp i)) m

/-- The routine `mat4identity(M)`. -/
def mat4identity {α : Type} [Ring α] (m : Mem α) (M : Nat) : Mem α :=
  forLoop 16 (fun i mem =>
    if i % 5 = 0 ∨ i = 0 then store mem (M + i) 1 else store mem (M + i) 0) m

/-- The routine `mat4rotX(M, angle)`. -/
def mat4rotX {α : Type} [Ring α] (cos sin : α → α) (m : Mem α) (M : Nat) (angle : α) :
    Mem α :=
  let m := mat4identity m M
  let m := store m (M + 5) (cos angle)
  let m := store m (M + 6) (sin angle)
  let m := store m (M + 9) (-sin angle)
  store m (M + 10) (cos angle)

/-- The routine `mat4rotY(M, angle)`. -/
def mat4rotY {α : Type} [Ring α] (cos sin : α → α) (m : Mem α) (M : Nat) (angle : α) :
    Mem α :=
  let m := mat4identity m M
  let m := store m (M + 0) (cos angle)
  let m := store m (M + 2) (-sin angle)
  let m := store m (M + 8) (sin angle)
  store m (M + 10) (cos angle)

/-- The routine `mat4rotZ(M, angle)`. -/
def mat4rotZ {α : Type} [Ring α] (cos sin : α → α) (m : Mem α) (M : Nat) (angle : α) :
    Mem α :=
  let m := mat4identity m M
  let m := store m (M + 0) (cos angle)
  let m := store m (M + 1) (sin angle)
  let m := store m (M + 4) (-sin angle)
  store m (M + 5) (cos angle)

/-- The routine `mat4scale(M, scale)`. -/
def mat4scale {α : Type} [Ring α] (m : Mem α) (M : Nat) (scale : α) : Mem α :=
  let m := mat4identity m M
  let m := store m (M + 0) scale
  let m := store m (M + 5) scale
  store m (M + 10) scale

/-- The routine `mat4translate(M, x, y, z)`. -/
def mat4translate {α : Type} [Ring α] (m : Mem α) (M : Nat) (x y z : α) : Mem α :=
  let m := mat4identity m M
  let m := store m (M + 12) x
  let m := store m (M + 13) y
  store m (M + 14) z

/-- Column-major matrix-vector product as the specification defines it:
`(M v)[r] = sum over c in 0..3 of M[r + 4*c] * v[c]`, for the matrix held in
the 16 cells at `M`. -/
def mat4apply {α : Type} [Ring α] (m : Mem α) (M : Nat) (v : Nat → α) (r : Nat) : α :=
  ∑ c in Finset.range 4, m (M + (r + 4 * c)) * v c

/-- The 4-vector `(a, b, c, d)` as a function of the component index. -/
def vec4 {α : Type} (a b c d : α) : Nat → α := fun i =>
  match i with
  | 0 => a
  | 1 => b
  | 2 => c
  | _ => d

/-- The 4x4 matrix held in the 16 cells at `M`, column-major: its entry in
row `r` and column `c` is the cell at flat index `r + 4*c`. -/
def matrixAt {α : Type} (m : Mem α) (M : Nat) : Matrix (Fin 4) (Fin 4) α :=
  Matrix.of fun r c => m (M + (r.val + 4 * c.val))

/-- Two 16-cell buffers at `A` and at `B` that do not overlap, as two distinct
array objects. -/
abbrev separate (A B : Nat) : Prop := A + 16 ≤ B ∨ B + 16 ≤ A

/-- The matrices that `main` of lab3 builds once, before its main loop:
`mat4scale(Scale, 0.2); mat4translate(Trans, 0.5, 0.0, 0.0);
mat4rotX(View, -M_PI_4);`.  The constant `M_PI_4` of the C math header is a
parameter. -/
def lab3Setup {α : Type} [Field α] (cos sin : α → α) (M_PI_4 : α) (m : Mem α)
    (Scale Trans View : Nat) : Mem α :=
  let m := mat4scale m Scale 0.2
  let m := mat4translate m Trans 0.5 0.0 0.0
  mat4rotX cos sin m View (-M_PI_4)

/-- The matrix code of one pass of the main loop of lab3, from
`mat4identity(B)` to `mat4mult(B, Scale, B)`, at the elapsed time `time`; the
memory it returns is the one whose buffer `B` is uploaded. -/
def lab3Frame {α : Type} [Field α] (cos sin : α → α) (m : Mem α)
    (B Spin Orbit Scale Trans View : Nat) (time : α) : Mem α :=
  let m := mat4identity m B
  let m := mat4rotY cos sin m Spin (time * 1.5)
  let m := mat4rotY cos sin m Orbit time
  let m := mat4mult m B View B
  let m := mat4mult m B Orbit B
  let m := mat4mult m B Trans B
  let m := mat4mult m B Spin B
  mat4mult m B Scale B

/-- The memory of lab3 after the set-up and one pass of the main loop for each
elapsed time of `times`, in order. -/
def lab3Run {α : Type} [Field α] (cos sin : α → α) (M_PI_4 : α) (m : Mem α)
    (B Spin Orbit Scale Trans View : Nat) (times : List α) : Mem α :=
  times.foldl (fun mem time => lab3Frame cos sin mem B Spin Orbit Scale Trans View time)
    (lab3Setup cos sin M_PI_4 m Scale Trans View)

/-! ## Smoke tests on concrete integer memories -/

example : mat4rotX (fun _ => (3 : ℤ)) (fun _ => 4) (fun _ => 9) 7 0 (7 + 6) = 4 := by decide
example : mat4rotX (fun _ => (3 : ℤ)) (fun _ => 4) (fun _ => 9) 7 0 (7 + 9) = -4 := by decide
example : mat4translate (fun _ => (9 : ℤ)) 7 1 2 3 (7 + 13) = 2 := by decide
example : mat4scale (fun _ => (9 : ℤ)) 7 5 (7 + 15) = 1 := by decide
example : matrixAt (fun a => (a : ℤ)) 3 1 2 = 12 := by decide
example : mat4identity (fun _ => (7 : ℤ)) 3 (3 + 5) = 1 := by decide
example : mat4identity (fun _ => (7 : ℤ)) 3 (3 + 6) = 0 := by decide
example : mat4identity (fun _ => (7 : ℤ)) 3 2 = 7 := by decide
example : mat4mult (fun a => (a : ℤ)) 0 16 32 (32 + 6) = 2 * 20 + 6 * 21 + 10 * 22 + 14 * 23 := by
  decide
example : mat4mult (fun a => (a : ℤ)) 0 16 0 6 = 2 * 20 + 6 * 21 + 10 * 22 + 14 * 23 := by
  decide

/-! ## Memory and loop lemmas -/

theorem store_same {α : Type} (m : Mem α) (a : Nat) (v : α) : store m a v a = v := by
  simp [store]

theorem store_other {α : Type} (m : Mem α) {a b : Nat} (v : α) (h : b ≠ a) :
    store m a v b = m b := by
  simp [store, h]

/-- A loop that writes `f i` to cell `p + i` for `i < n` leaves `f (a - p)` in
each cell `a` of the block and every other cell as it was. -/
theorem forLoop_store {α : Type} (n p : Nat) (f : Nat → α) (m : Mem α) (a : Nat) :
    forLoop n (fun i mem => store mem (p + i) (f i)) m a
      = if p ≤ a ∧ a < p + n then f (a - p) else m a := by
  induction n with
  | zero =>
    have h : ¬ (p ≤ a ∧ a < p + 0) := by omega
    rw [if_neg h]
    rfl
  | succ k ih =>
    simp only [forLoop]
    by_cases hak : a = p + k
    · subst hak
      have h : p ≤ p + k ∧ p + k < p + (k + 1) := by omega
      simp [store, h]
    · rw [store_other _ _ hak, ih]
      by_cases h : p ≤ a ∧ a < p + k
      · have h2 : p ≤ a ∧ a < p + (k + 1) := by omega
        simp [h, h2]
      · have h2 : ¬ (p ≤ a ∧ a < p + (k + 1)) := by omega
        simp [h, h2]

/-- Entry `i` of the output of `mat4mult`, read from the memory before the
call: the row `i % 4` of `M1` times the column `i / 4` of `M2`. -/
theorem mat4mult_read {α : Type} [Ring α] (m : Mem α) (M1 M2 Mout i : Nat) (hi : i < 16) :
    mat4mult m M1 M2 Mout (Mout + i)
      = m (M1 + i % 4) * m (M2 + 4 * (i / 4))
        + m (M1 + (i % 4 + 4)) * m (M2 + (4 * (i / 4) + 1))
        + m (M1 + (i % 4 + 8)) * m (M2 + (4 * (i / 4) + 2))
        + m (M1 + (i % 4 + 12)) * m (M2 + (4 * (i / 4) + 3)) := by
  have h : Mout ≤ Mout + i ∧ Mout + i < Mout + 16 := by omega
  simp only [mat4mult, forLoop_store, if_pos h, Nat.add_sub_cancel_left]
  interval_cases i <;> simp [forLoop, store]

/-- Frame: `mat4mult` changes no cell outside its output buffer. -/
theorem mat4mult_frame {α : Type} [Ring α] (m : Mem α) (M1 M2 Mout a : Nat)
    (ha : a < Mout ∨ Mout + 16 ≤ a) : mat4mult m M1 M2 Mout a = m a := by
  have h : ¬ (Mout ≤ a ∧ a < Mout + 16) := by omega
  simp only [mat4mult, forLoop_store, if_neg h]

/-- Closed form of `mat4identity`: inside the buffer, cell `M + i` holds 1
when `i` is a multiple of 5 and 0 otherwise; outside, nothing changes. -/
theorem mat4identity_apply {α : Type} [Ring α] (m : Mem α) (M a : Nat) :
    mat4identity m M a
      = if M ≤ a ∧ a < M + 16 then (if (a - M) % 5 = 0 then 1 else 0) else m a := by
  have hbody : (fun (i : Nat) (mem : Mem α) =>
        if i % 5 = 0 ∨ i = 0 then store mem (M + i) 1 else store mem (M + i) 0)
      = fun i mem => store mem (M + i) (if i % 5 = 0 then (1 : α) else 0) := by
    funext i mem
    by_cases h : i % 5 = 0
    · simp [h]
    · have h0 : i ≠ 0 := by
        intro h0
        exact h (by simp [h0])
      simp [h, h0]
  unfold mat4identity
  rw [hbody, forLoop_store]

theorem mat4identity_read {α : Type} [Ring α] (m : Mem α) (M i : Nat) (hi : i < 16) :
    mat4identity m M (M + i) = if i % 5 = 0 then 1 else 0 := by
  have h : M ≤ M + i ∧ M + i < M + 16 := by omega
  rw [mat4identity_apply, if_pos h, Nat.add_sub_cancel_left]

theorem mat4identity_frame {α : Type} [Ring α] (m : Mem α) (M a : Nat)
    (ha : a < M ∨ M + 16 ≤ a) : mat4identity m M a = m a := by
  have h : ¬ (M ≤ a ∧ a < M + 16) := by omega
  rw [mat4identity_apply, if_neg h]

theorem mat4identity_read0 {α : Type} [Ring α] (m : Mem α) (M : Nat) :
    mat4identity m M M = 1 := by
  simpa using mat4identity_read m M 0 (by omega)

/-! ## Entries of the matrices the builders write -/

theorem mat4rotX_read {α : Type} [Ring α] (cos sin : α → α) (m : Mem α) (M : Nat) (t : α)
    (i : Nat) (hi : i < 16) :
    mat4rotX cos sin m M t (M + i)
      = if i = 5 ∨ i = 10 then cos t else if i = 6 then sin t else if i = 9 then -sin t
        else if i = 0 ∨ i = 15 then 1 else 0 := by
  unfold mat4rotX
  simp only [store]
  interval_cases i <;> simp [mat4identity_read, mat4identity_read0]

theorem mat4rotY_read {α : Type} [Ring α] (cos sin : α → α) (m : Mem α) (M : Nat) (t : α)
    (i : Nat) (hi : i < 16) :
    mat4rotY cos sin m M t (M + i)
      = if i = 0 ∨ i = 10 then cos t else if i = 8 then sin t else if i = 2 then -sin t
        else if i = 5 ∨ i = 15 then 1 else 0 := by
  unfold mat4rotY
  simp only [store]
  interval_cases i <;> simp [mat4identity_read, mat4identity_read0]

theorem mat4rotZ_read {α : Type} [Ring α] (cos sin : α → α) (m : Mem α) (M : Nat) (t : α)
    (i : Nat) (hi : i < 16) :
    mat4rotZ cos sin m M t (M + i)
      = if i = 0 ∨ i = 5 then cos t else if i = 1 then sin t else if i = 4 then -sin t
        else if i = 10 ∨ i = 15 then 1 else 0 := by
  unfold mat4rotZ
  simp only [store]
  interval_cases i <;> simp [mat4identity_read, mat4identity_read0]

theorem mat4rotX_frame {α : Type} [Ring α] (cos sin : α → α) (m : Mem α) (M : Nat) (t : α)
    (a : Nat) (ha : a < M ∨ M + 16 ≤ a) : mat4rotX cos sin m M t a = m a := by
  unfold mat4rotX
  rw [store_other _ _ (by omega), store_other _ _ (by omega), store_other _ _ (by omega),
    store_other _ _ (by omega), mat4identity_frame m M a ha]

theorem mat4rotY_frame {α : Type} [Ring α] (cos sin : α → α) (m : Mem α) (M : Nat) (t : α)
    (a : Nat) (ha : a < M ∨ M + 16 ≤ a) : mat4rotY cos sin m M t a = m a := by
  unfold mat4rotY
  rw [store_other _ _ (by omega), store_other _ _ (by omega), store_other _ _ (by omega),
    store_other _ _ (by omega), mat4identity_frame m M a ha]

theorem mat4rotZ_frame {α : Type} [Ring α] (cos sin : α → α) (m : Mem α) (M : Nat) (t : α)
    (a : Nat) (ha : a < M ∨ M + 16 ≤ a) : mat4rotZ cos sin m M t a = m a := by
  unfold mat4rotZ
  rw [store_other _ _ (by omega), store_other _ _ (by omega), store_other _ _ (by omega),
    store_other _ _ (by omega), mat4identity_frame m M a ha]

theorem mat4scale_read {α : Type} [Ring α] (m : Mem α) (M : Nat) (s : α) (i : Nat) :
    mat4scale m M s (M + i)
      = if i = 0 ∨ i = 5 ∨ i = 10 then s else mat4identity m M (M + i) := by
  unfold mat4scale
  simp only [store, add_right_inj]
  split_ifs <;> simp_all

theorem mat4translate_read {α : Type} [Ring α] (m : Mem α) (M : Nat) (x y z : α) (i : Nat) :
    mat4translate m M x y z (M + i)
      = if i = 12 then x else if i = 13 then y else if i = 14 then z
        else mat4identity m M (M + i) := by
  unfold mat4translate
  simp only [store, add_right_inj]
  split_ifs <;> simp_all

theorem mat4translate_frame {α : Type} [Ring α] (m : Mem α) (M : Nat) (x y z : α)
    (a : Nat) (ha : a < M ∨ M + 16 ≤ a) : mat4translate m M x y z a = m a := by
  unfold mat4translate
  rw [store_other _ _ (by omega), store_other _ _ (by omega), store_other _ _ (by omega),
    mat4identity_frame m M a ha]

/-! ## The matrix product -/

/-- C1: `mat4mult` computes the standard 4x4 matrix product in column-major
layout.  For every memory (so for all contents of the two input matrices) and
all pointers, the output entry at flat index `r + 4*c` is the sum over
`k` in 0..3 of `M1[r + 4*k] * M2[k + 4*c]` taken over the contents before the
call; and applying the result to a vector `v` gives the same row entries as
applying `M2` to `v` and then `M1`. -/
theorem mat4mult_matrix_product {α : Type} [Ring α] (m : Mem α) (M1 M2 Mout : Nat)
    (v : Nat → α) (r c : Nat) (hr : r < 4) (hc : c < 4) :
    mat4mult m M1 M2 Mout (Mout + (r + 4 * c))
        = ∑ k in Finset.range 4, m (M1 + (r + 4 * k)) * m (M2 + (k + 4 * c))
      ∧ mat4apply (mat4mult m M1 M2 Mout) Mout v r
        = mat4apply m M1 (mat4apply m M2 v) r := by
  constructor
  · rw [mat4mult_read m M1 M2 Mout (r + 4 * c) (by omega)]
    interval_cases r <;> interval_cases c <;> simp [Finset.sum_range_succ]
  · simp only [mat4apply, Finset.sum_range_succ, Finset.sum_range_zero]
    rw [mat4mult_read m M1 M2 Mout (r + 4 * 0) (by omega),
      mat4mult_read m M1 M2 Mout (r + 4 * 1) (by omega),
      mat4mult_read m M1 M2 Mout (r + 4 * 2) (by omega),
      mat4mult_read m M1 M2 Mout (r + 4 * 3) (by omega)]
    interval_cases r <;> simp [mul_add, add_mul, mul_assoc] <;> abel

/-- Witness for C1 on the integer memory whose cell `a` holds `a`, with
`M1` at 0, `M2` at 16 and the output at 32, row 2 and column 1. -/
theorem mat4mult_matrix_product_witness :
    mat4mult (fun a => (a : ℤ)) 0 16 32 (32 + (2 + 4 * 1))
        = ∑ k in Finset.range 4,
            (fun a => (a : ℤ)) (0 + (2 + 4 * k)) * (fun a => (a : ℤ)) (16 + (k + 4 * 1))
      ∧ mat4apply (mat4mult (fun a => (a : ℤ)) 0 16 32) 32 (fun c => (c : ℤ) + 1) 2
        = mat4apply (fun a => (a : ℤ)) 0
            (mat4apply (fun a => (a : ℤ)) 16 (fun c => (c : ℤ) + 1)) 2 :=
  mat4mult_matrix_product (fun a => (a : ℤ)) 0 16 32 (fun c => (c : ℤ) + 1) 2 1
    (by decide) (by decide)

/-- C2: the matrix of `mat4identity` (1 at flat indices 0, 5, 10, 15 and 0 at
the other twelve) is a left and a right identity of `mat4mult`.  With `A` a
buffer of any content, `I` a separate buffer filled by `mat4identity` and any
output pointer, entry `i` of both `mat4mult(I, A, Out)` and
`mat4mult(A, I, Out)` is `A[i]`. -/
theorem mat4mult_identity {α : Type} [Ring α] (m : Mem α) (A I Out i : Nat)
    (hsep : A + 16 ≤ I ∨ I + 16 ≤ A) (hi : i < 16) :
    mat4identity m I (I + i) = (if i = 0 ∨ i = 5 ∨ i = 10 ∨ i = 15 then 1 else 0)
      ∧ mat4mult (mat4identity m I) I A Out (Out + i) = m (A + i)
      ∧ mat4mult (mat4identity m I) A I Out (Out + i) = m (A + i) := by
  have hA : ∀ k, k < 16 → mat4identity m I (A + k) = m (A + k) := fun k hk =>
    mat4identity_frame m I (A + k) (by omega)
  have hI : ∀ k, k < 16 → mat4identity m I (I + k) = if k % 5 = 0 then 1 else 0 :=
    fun k hk => mat4identity_read m I k hk
  have hA0 : mat4identity m I A = m A := hA 0 (by omega)
  have hI0 : mat4identity m I I = 1 := by simpa using hI 0 (by omega)
  refine ⟨?_, ?_, ?_⟩
  · rw [hI i hi]
    interval_cases i <;> simp
  · rw [mat4mult_read _ I A Out i hi]
    interval_cases i <;> simp [hA, hI, hA0, hI0]
  · rw [mat4mult_read _ A I Out i hi]
    interval_cases i <;> simp [hA, hI, hA0, hI0]

/-- Witness for C2 on the integer memory whose cell `a` holds `a`, with `A`
at 0, the identity at 16, the output at 32 and entry 6. -/
theorem mat4mult_identity_witness :
    mat4identity (fun a => (a : ℤ)) 16 (16 + 6)
        = (if 6 = 0 ∨ 6 = 5 ∨ 6 = 10 ∨ 6 = 15 then 1 else 0)
      ∧ mat4mult (mat4identity (fun a => (a : ℤ)) 16) 16 0 32 (32 + 6)
        = (fun a => (a : ℤ)) (0 + 6)
      ∧ mat4mult (mat4identity (fun a => (a : ℤ)) 16) 0 16 32 (32 + 6)
        = (fun a => (a : ℤ)) (0 + 6) :=
  mat4mult_identity (fun a => (a : ℤ)) 0 16 32 6 (by decide) (by decide)

/-- C3: `mat4mult` tolerates output/input aliasing.  The call
`mat4mult(B, X, B)`, whose output is its first input, and the call
`mat4mult(X, B, B)`, whose output is its second input, leave in `B` the 16
values that the same call leaves in `Out` when given any other output pointer
`Out` (in particular a separate buffer), all computed from the contents of `B`
and `X` before the call. -/
theorem mat4mult_alias {α : Type} [Ring α] (m : Mem α) (B X Out i : Nat)
    (hi : i < 16) :
    mat4mult m B X B (B + i) = mat4mult m B X Out (Out + i)
      ∧ mat4mult m X B B (B + i) = mat4mult m X B Out (Out + i) := by
  constructor
  · rw [mat4mult_read m B X B i hi, mat4mult_read m B X Out i hi]
  · rw [mat4mult_read m X B B i hi, mat4mult_read m X B Out i hi]

/-- Witness for C3 on the integer memory whose cell `a` holds `a`, with `B`
at 0, `X` at 16, the separate output at 32 and entry 6. -/
theorem mat4mult_alias_witness :
    mat4mult (fun a => (a : ℤ)) 0 16 0 (0 + 6) = mat4mult (fun a => (a : ℤ)) 0 16 32 (32 + 6)
      ∧ mat4mult (fun a => (a : ℤ)) 16 0 0 (0 + 6)
        = mat4mult (fun a => (a : ℤ)) 16 0 32 (32 + 6) :=
  mat4mult_alias (fun a => (a : ℤ)) 0 16 32 6 (by decide)

/-! ## Rotations -/

/-- The product of the X rotation by `t` with the X rotation by `-t`, built in
separate buffers `A` and `B`, has the entries of the identity. -/
theorem rotX_mul_rotX_neg (m : Mem ℝ) (A B Out i : Nat) (t : ℝ)
    (hsep : A + 16 ≤ B ∨ B + 16 ≤ A) (hi : i < 16) :
    mat4mult (mat4rotX Real.cos Real.sin (mat4rotX Real.cos Real.sin m A t) B (-t))
        A B Out (Out + i) = if i % 5 = 0 then 1 else 0 := by
  have hA := fun k (hk : k < 16) =>
    (mat4rotX_frame Real.cos Real.sin (mat4rotX Real.cos Real.sin m A t) B (-t) (A + k)
      (by omega)).trans (mat4rotX_read Real.cos Real.sin m A t k hk)
  have hB := fun k (hk : k < 16) =>
    mat4rotX_read Real.cos Real.sin (mat4rotX Real.cos Real.sin m A t) B (-t) k hk
  have hA0 := hA 0 (by omega)
  have hB0 := hB 0 (by omega)
  simp only [Nat.add_zero] at hA0 hB0
  rw [mat4mult_read _ A B Out i hi]
  have hcs := Real.cos_sq_add_sin_sq t
  interval_cases i <;> simp [hA, hB, hA0, hB0] <;> nlinarith [hcs]

/-- The same for the Y rotation. -/
theorem rotY_mul_rotY_neg (m : Mem ℝ) (A B Out i : Nat) (t : ℝ)
    (hsep : A + 16 ≤ B ∨ B + 16 ≤ A) (hi : i < 16) :
    mat4mult (mat4rotY Real.cos Real.sin (mat4rotY Real.cos Real.sin m A t) B (-t))
        A B Out (Out + i) = if i % 5 = 0 then 1 else 0 := by
  have hA := fun k (hk : k < 16) =>
    (mat4rotY_frame Real.cos Real.sin (mat4rotY Real.cos Real.sin m A t) B (-t) (A + k)
      (by omega)).trans (mat4rotY_read Real.cos Real.sin m A t k hk)
  have hB := fun k (hk : k < 16) =>
    mat4rotY_read Real.cos Real.sin (mat4rotY Real.cos Real.sin m A t) B (-t) k hk
  have hA0 := hA 0 (by omega)
  have hB0 := hB 0 (by omega)
  simp only [Nat.add_zero] at hA0 hB0
  rw [mat4mult_read _ A B Out i hi]
  have hcs := Real.cos_sq_add_sin_sq t
  interval_cases i <;> simp [hA, hB, hA0, hB0] <;> nlinarith [hcs]

/-- The same for the Z rotation. -/
theorem rotZ_mul_rotZ_neg (m : Mem ℝ) (A B Out i : Nat) (t : ℝ)
    (hsep : A + 16 ≤ B ∨ B + 16 ≤ A) (hi : i < 16) :
    mat4mult (mat4rotZ Real.cos Real.sin (mat4rotZ Real.cos Real.sin m A t) B (-t))
        A B Out (Out + i) = if i % 5 = 0 then 1 else 0 := by
  have hA := fun k (hk : k < 16) =>
    (mat4rotZ_frame Real.cos Real.sin (mat4rotZ Real.cos Real.sin m A t) B (-t) (A + k)
      (by omega)).trans (mat4rotZ_read Real.cos Real.sin m A t k hk)
  have hB := fun k (hk : k < 16) =>
    mat4rotZ_read Real.cos Real.sin (mat4rotZ Real.cos Real.sin m A t) B (-t) k hk
  have hA0 := hA 0 (by omega)
  have hB0 := hB 0 (by omega)
  simp only [Nat.add_zero] at hA0 hB0
  rw [mat4mult_read _ A B Out i hi]
  have hcs := Real.cos_sq_add_sin_sq t
  interval_cases i <;> simp [hA, hB, hA0, hB0] <;> nlinarith [hcs]

/-- C4: for every angle `t`, with the rotation by `t` built in a buffer `A`
and the rotation by `-t` about the same axis built in a separate buffer `B`,
every entry `i` of `mat4mult(A, B, Out)` equals entry `i` of the matrix that
`mat4identity` writes, for each of `mat4rotX`, `mat4rotY` and `mat4rotZ`
(exact real arithmetic, real `cos` and `sin`). -/
theorem rot_mul_rot_neg_eq_identity (m : Mem ℝ) (A B Out I i : Nat) (t : ℝ)
    (hsep : A + 16 ≤ B ∨ B + 16 ≤ A) (hi : i < 16) :
    mat4mult (mat4rotX Real.cos Real.sin (mat4rotX Real.cos Real.sin m A t) B (-t))
        A B Out (Out + i) = mat4identity m I (I + i)
      ∧ mat4mult (mat4rotY Real.cos Real.sin (mat4rotY Real.cos Real.sin m A t) B (-t))
        A B Out (Out + i) = mat4identity m I (I + i)
      ∧ mat4mult (mat4rotZ Real.cos Real.sin (mat4rotZ Real.cos Real.sin m A t) B (-t))
        A B Out (Out + i) = mat4identity m I (I + i) := by
  rw [mat4identity_read m I i hi]
  exact ⟨rotX_mul_rotX_neg m A B Out i t hsep hi, rotY_mul_rotY_neg m A B Out i t hsep hi,
    rotZ_mul_rotZ_neg m A B Out i t hsep hi⟩

/-- Witness for C4: angle 1, zero memory, `A` at 0, `B` at 16, output at 32,
identity at 48, entry 5. -/
theorem rot_mul_rot_neg_eq_identity_witness :
    mat4mult (mat4rotX Real.cos Real.sin (mat4rotX Real.cos Real.sin (fun _ => 0) 0 1) 16 (-1))
        0 16 32 (32 + 5) = mat4identity (fun _ => 0) 48 (48 + 5)
      ∧ mat4mult (mat4rotY Real.cos Real.sin (mat4rotY Real.cos Real.sin (fun _ => 0) 0 1)
          16 (-1)) 0 16 32 (32 + 5) = mat4identity (fun _ => 0) 48 (48 + 5)
      ∧ mat4mult (mat4rotZ Real.cos Real.sin (mat4rotZ Real.cos Real.sin (fun _ => 0) 0 1)
          16 (-1)) 0 16 32 (32 + 5) = mat4identity (fun _ => 0) 48 (48 + 5) :=
  rot_mul_rot_neg_eq_identity (fun _ => 0) 0 16 32 48 5 1 (by decide) (by decide)

/-- C5: the sign convention of the rotation builders, with entry (row `r`,
column `c`) at flat index `r + 4*c`.  `mat4rotX` has (1,1) = (2,2) = cos t,
(2,1) = sin t, (1,2) = -sin t; `mat4rotY` has (0,0) = (2,2) = cos t,
(0,2) = sin t, (2,0) = -sin t; `mat4rotZ` has (0,0) = (1,1) = cos t,
(1,0) = sin t, (0,1) = -sin t; every other entry is the entry of the identity.
It holds for any scalar type and any functions `cos` and `sin`, so for the
real cosine and sine. -/
theorem rot_sign_convention {α : Type} [Ring α] (cos sin : α → α) (m : Mem α) (M : Nat)
    (t : α) (r c : Nat) (hr : r < 4) (hc : c < 4) :
    mat4rotX cos sin m M t (M + (r + 4 * c))
        = (if (r = 1 ∧ c = 1) ∨ (r = 2 ∧ c = 2) then cos t
           else if r = 2 ∧ c = 1 then sin t
           else if r = 1 ∧ c = 2 then -sin t
           else mat4identity m M (M + (r + 4 * c)))
      ∧ mat4rotY cos sin m M t (M + (r + 4 * c))
        = (if (r = 0 ∧ c = 0) ∨ (r = 2 ∧ c = 2) then cos t
           else if r = 0 ∧ c = 2 then sin t
           else if r = 2 ∧ c = 0 then -sin t
           else mat4identity m M (M + (r + 4 * c)))
      ∧ mat4rotZ cos sin m M t (M + (r + 4 * c))
        = (if (r = 0 ∧ c = 0) ∨ (r = 1 ∧ c = 1) then cos t
           else if r = 1 ∧ c = 0 then sin t
           else if r = 0 ∧ c = 1 then -sin t
           else mat4identity m M (M + (r + 4 * c))) := by
  rw [mat4rotX_read cos sin m M t _ (by omega), mat4rotY_read cos sin m M t _ (by omega),
    mat4rotZ_read cos sin m M t _ (by omega), mat4identity_read m M _ (by omega)]
  interval_cases r <;> interval_cases c <;> simp

/-- Witness for C5 over the integers, with stand-ins `cos = 3` and `sin = 4`,
at row 2 and column 1 of a matrix built at address 7. -/
theorem rot_sign_convention_witness :
    mat4rotX (fun _ => (3 : ℤ)) (fun _ => 4) (fun _ => 9) 7 0 (7 + (2 + 4 * 1))
        = (if (2 = 1 ∧ 1 = 1) ∨ (2 = 2 ∧ 1 = 2) then (fun _ => (3 : ℤ)) 0
           else if 2 = 2 ∧ 1 = 1 then (fun _ => (4 : ℤ)) 0
           else if 2 = 1 ∧ 1 = 2 then -(fun _ => (4 : ℤ)) 0
           else mat4identity (fun _ => 9) 7 (7 + (2 + 4 * 1)))
      ∧ mat4rotY (fun _ => (3 : ℤ)) (fun _ => 4) (fun _ => 9) 7 0 (7 + (2 + 4 * 1))
        = (if (2 = 0 ∧ 1 = 0) ∨ (2 = 2 ∧ 1 = 2) then (fun _ => (3 : ℤ)) 0
           else if 2 = 0 ∧ 1 = 2 then (fun _ => (4 : ℤ)) 0
           else if 2 = 2 ∧ 1 = 0 then -(fun _ => (4 : ℤ)) 0
           else mat4identity (fun _ => 9) 7 (7 + (2 + 4 * 1)))
      ∧ mat4rotZ (fun _ => (3 : ℤ)) (fun _ => 4) (fun _ => 9) 7 0 (7 + (2 + 4 * 1))
        = (if (2 = 0 ∧ 1 = 0) ∨ (2 = 1 ∧ 1 = 1) then (fun _ => (3 : ℤ)) 0
           else if 2 = 1 ∧ 1 = 0 then (fun _ => (4 : ℤ)) 0
           else if 2 = 0 ∧ 1 = 1 then -(fun _ => (4 : ℤ)) 0
           else mat4identity (fun _ => 9) 7 (7 + (2 + 4 * 1))) :=
  rot_sign_convention (fun _ => (3 : ℤ)) (fun _ => 4) (fun _ => 9) 7 0 2 1
    (by decide) (by decide)

/-! ## Translation and scale -/

/-- C7: `mat4translate(M, x, y, z)` builds the identity with flat indices 12,
13, 14 set to `x`, `y`, `z`, and applying that matrix to the homogeneous point
(0, 0, 0, 1) yields (x, y, z, 1). -/
theorem mat4translate_spec {α : Type} [Ring α] (m : Mem α) (M : Nat) (x y z : α) (i : Nat) :
    mat4translate m M x y z (M + i)
        = (if i = 12 then x else if i = 13 then y else if i = 14 then z
           else mat4identity m M (M + i))
      ∧ mat4apply (mat4translate m M x y z) M (vec4 0 0 0 1) 0 = x
      ∧ mat4apply (mat4translate m M x y z) M (vec4 0 0 0 1) 1 = y
      ∧ mat4apply (mat4translate m M x y z) M (vec4 0 0 0 1) 2 = z
      ∧ mat4apply (mat4translate m M x y z) M (vec4 0 0 0 1) 3 = 1 := by
  refine ⟨mat4translate_read m M x y z i, ?_, ?_, ?_, ?_⟩ <;>
    simp [mat4apply, Finset.sum_range_succ, vec4, mat4translate, store, mat4identity_apply]

/-- C8: `mat4scale(M, s)` builds the identity with the diagonal entries (0,0),
(1,1), (2,2) (flat indices 0, 5, 10) set to `s` and entry (3,3) (flat index
15) left at 1, and applying that matrix to the homogeneous point (1, 1, 1, 1)
yields (s, s, s, 1). -/
theorem mat4scale_spec {α : Type} [Ring α] (m : Mem α) (M : Nat) (s : α) (i : Nat) :
    mat4scale m M s (M + i)
        = (if i = 0 ∨ i = 5 ∨ i = 10 then s else mat4identity m M (M + i))
      ∧ mat4scale m M s (M + 15) = 1
      ∧ mat4apply (mat4scale m M s) M (vec4 1 1 1 1) 0 = s
      ∧ mat4apply (mat4scale m M s) M (vec4 1 1 1 1) 1 = s
      ∧ mat4apply (mat4scale m M s) M (vec4 1 1 1 1) 2 = s
      ∧ mat4apply (mat4scale m M s) M (vec4 1 1 1 1) 3 = 1 := by
  refine ⟨mat4scale_read m M s i, ?_, ?_, ?_, ?_, ?_⟩ <;>
    simp [mat4apply, Finset.sum_range_succ, vec4, mat4scale, store, mat4identity_apply]

/-- C9: composing a translation with a zero-angle Y rotation gives the plain
translation.  With `mat4translate(T, x, y, z)` and `mat4rotY(R, 0)` built in
separate buffers, every entry `i` of `mat4mult(T, R, Out)` equals entry `i` of
the translation matrix (exact real arithmetic, `cos 0 = 1`, `sin 0 = 0`). -/
theorem translate_mul_rotY_zero (m : Mem ℝ) (T R Out i : Nat) (x y z : ℝ)
    (hsep : T + 16 ≤ R ∨ R + 16 ≤ T) (hi : i < 16) :
    mat4mult (mat4rotY Real.cos Real.sin (mat4translate m T x y z) R 0) T R Out (Out + i)
      = mat4translate m T x y z (T + i) := by
  have hT := fun k (hk : k < 16) =>
    (mat4rotY_frame Real.cos Real.sin (mat4translate m T x y z) R 0 (T + k) (by omega)).trans
      ((mat4translate_read m T x y z k).trans
        (by rw [mat4identity_read m T k hk] :
          (if k = 12 then x else if k = 13 then y else if k = 14 then z
            else mat4identity m T (T + k))
          = (if k = 12 then x else if k = 13 then y else if k = 14 then z
            else if k % 5 = 0 then 1 else 0)))
  have hR := fun k (hk : k < 16) =>
    mat4rotY_read Real.cos Real.sin (mat4translate m T x y z) R 0 k hk
  have hT0 := hT 0 (by omega)
  have hR0 := hR 0 (by omega)
  simp only [Nat.add_zero] at hT0 hR0
  rw [mat4mult_read _ T R Out i hi, mat4translate_read, mat4identity_read m T i hi]
  interval_cases i <;> simp [hT, hR, hT0, hR0]

/-- Witness for C9: the translation (0, 0, -0.7) of lab4 at address 0, the
rotation at 16, the product written in place over the translation, entry 14. -/
theorem translate_mul_rotY_zero_witness :
    mat4mult (mat4rotY Real.cos Real.sin (mat4translate (fun _ => 0) 0 0 0 (-0.7)) 16 0)
        0 16 0 (0 + 14)
      = mat4translate (fun _ => 0) 0 0 0 (-0.7) (0 + 14) :=
  translate_mul_rotY_zero (fun _ => 0) 0 16 0 14 0 0 (-0.7) (by decide) (by decide)

/-! ## The frame step of lab3 -/

theorem mat4scale_frame {α : Type} [Ring α] (m : Mem α) (M : Nat) (s : α)
    (a : Nat) (ha : a < M ∨ M + 16 ≤ a) : mat4scale m M s a = m a := by
  unfold mat4scale
  rw [store_other _ _ (by omega), store_other _ _ (by omega), store_other _ _ (by omega),
    mat4identity_frame m M a ha]

/-- The matrix at `M` depends only on the 16 cells of the buffer. -/
theorem matrixAt_congr {α : Type} (m n : Mem α) (M N : Nat)
    (h : ∀ i, i < 16 → m (M + i) = n (N + i)) : matrixAt m M = matrixAt n N := by
  ext r c
  simp only [matrixAt, Matrix.of_apply]
  exact h _ (by omega)

/-- An operation that changes no cell outside a buffer `X` leaves the matrix
of every separate buffer `M` as it was. -/
theorem matrixAt_of_frame {α : Type} (m n : Mem α) (X M : Nat)
    (h : ∀ a, a < X ∨ X + 16 ≤ a → n a = m a) (hs : separate X M) :
    matrixAt n M = matrixAt m M :=
  matrixAt_congr n m M M (fun i hi => h (M + i) (by unfold separate at hs; omega))

/-- The matrix that `mat4mult` leaves in its output buffer is the product of
the matrices its two inputs held before the call. -/
theorem matrixAt_mat4mult {α : Type} [Ring α] (m : Mem α) (M1 M2 Mout : Nat) :
    matrixAt (mat4mult m M1 M2 Mout) Mout = matrixAt m M1 * matrixAt m M2 := by
  ext r c
  simp only [matrixAt, Matrix.mul_apply, Matrix.of_apply, Fin.sum_univ_four]
  rw [mat4mult_read m M1 M2 Mout _ (by omega)]
  fin_cases r <;> fin_cases c <;> rfl

/-- The matrix that `mat4identity` leaves in its buffer is the unit matrix. -/
theorem matrixAt_mat4identity {α : Type} [Ring α] (m : Mem α) (M : Nat) :
    matrixAt (mat4identity m M) M = 1 := by
  ext r c
  simp only [matrixAt, Matrix.of_apply]
  rw [mat4identity_read m M _ (by omega)]
  fin_cases r <;> fin_cases c <;> simp

theorem matrixAt_mat4mult_other {α : Type} [Ring α] (m : Mem α) (M1 M2 Mout M : Nat)
    (hs : Mout + 16 ≤ M ∨ M + 16 ≤ Mout) :
    matrixAt (mat4mult m M1 M2 Mout) M = matrixAt m M :=
  matrixAt_of_frame m _ Mout M (mat4mult_frame m M1 M2 Mout) hs

theorem matrixAt_mat4identity_other {α : Type} [Ring α] (m : Mem α) (X M : Nat)
    (hs : X + 16 ≤ M ∨ M + 16 ≤ X) : matrixAt (mat4identity m X) M = matrixAt m M :=
  matrixAt_of_frame m _ X M (mat4identity_frame m X) hs

theorem matrixAt_mat4rotX_other {α : Type} [Ring α] (cos sin : α → α) (m : Mem α)
    (X M : Nat) (t : α) (hs : X + 16 ≤ M ∨ M + 16 ≤ X) :
    matrixAt (mat4rotX cos sin m X t) M = matrixAt m M :=
  matrixAt_of_frame m _ X M (mat4rotX_frame cos sin m X t) hs

theorem matrixAt_mat4rotY_other {α : Type} [Ring α] (cos sin : α → α) (m : Mem α)
    (X M : Nat) (t : α) (hs : X + 16 ≤ M ∨ M + 16 ≤ X) :
    matrixAt (mat4rotY cos sin m X t) M = matrixAt m M :=
  matrixAt_of_frame m _ X M (mat4rotY_frame cos sin m X t) hs

theorem matrixAt_mat4translate_other {α : Type} [Ring α] (m : Mem α) (X M : Nat)
    (x y z : α) (hs : X + 16 ≤ M ∨ M + 16 ≤ X) :
    matrixAt (mat4translate m X x y z) M = matrixAt m M :=
  matrixAt_of_frame m _ X M (mat4translate_frame m X x y z) hs

/-- The matrix a builder writes does not depend on the memory it starts from. -/
theorem matrixAt_mat4rotX_indep {α : Type} [Ring α] (cos sin : α → α) (m n : Mem α)
    (M : Nat) (t : α) :
    matrixAt (mat4rotX cos sin m M t) M = matrixAt (mat4rotX cos sin n M t) M :=
  matrixAt_congr _ _ M M (fun i hi => by
    rw [mat4rotX_read cos sin m M t i hi, mat4rotX_read cos sin n M t i hi])

theorem matrixAt_mat4rotY_indep {α : Type} [Ring α] (cos sin : α → α) (m n : Mem α)
    (M : Nat) (t : α) :
    matrixAt (mat4rotY cos sin m M t) M = matrixAt (mat4rotY cos sin n M t) M :=
  matrixAt_congr _ _ M M (fun i hi => by
    rw [mat4rotY_read cos sin m M t i hi, mat4rotY_read cos sin n M t i hi])

theorem matrixAt_mat4translate_indep {α : Type} [Ring α] (m n : Mem α) (M : Nat)
    (x y z : α) :
    matrixAt (mat4translate m M x y z) M = matrixAt (mat4translate n M x y z) M :=
  matrixAt_congr _ _ M M (fun i hi => by
    rw [mat4translate_read m M x y z i, mat4translate_read n M x y z i,
      mat4identity_read m M i hi, mat4identity_read n M i hi])

/-- One pass of the lab3 loop changes no cell outside `B`, `Spin` and `Orbit`. -/
theorem lab3Frame_frame {α : Type} [Field α] (cos sin : α → α) (m : Mem α)
    (B Spin Orbit Scale Trans View : Nat) (t : α) (a : Nat)
    (hB : a < B ∨ B + 16 ≤ a) (hS : a < Spin ∨ Spin + 16 ≤ a)
    (hO : a < Orbit ∨ Orbit + 16 ≤ a) :
    lab3Frame cos sin m B Spin Orbit Scale Trans View t a = m a := by
  unfold lab3Frame
  rw [mat4mult_frame _ _ _ _ _ hB, mat4mult_frame _ _ _ _ _ hB, mat4mult_frame _ _ _ _ _ hB,
    mat4mult_frame _ _ _ _ _ hB, mat4mult_frame _ _ _ _ _ hB, mat4rotY_frame _ _ _ _ _ _ hO,
    mat4rotY_frame _ _ _ _ _ _ hS, mat4identity_frame _ _ _ hB]

/-- One pass of the lab3 loop, from any memory: the matrix left in `B` is the
product, in call order, of the matrices that `View`, `Trans` and `Scale` hold
and of the two Y rotations the pass builds. -/
theorem lab3Frame_matrix {α : Type} [Field α] (cos sin : α → α) (m : Mem α)
    (B Spin Orbit Scale Trans View : Nat) (t : α)
    (hsep : List.Pairwise separate [B, Spin, Orbit, Scale, Trans, View]) :
    matrixAt (lab3Frame cos sin m B Spin Orbit Scale Trans View t) B
      = matrixAt m View * matrixAt (mat4rotY cos sin m Orbit t) Orbit * matrixAt m Trans
        * matrixAt (mat4rotY cos sin m Spin (t * 1.5)) Spin * matrixAt m Scale := by
  simp only [List.pairwise_cons, List.mem_cons, List.mem_singleton, forall_eq_or_imp,
    forall_eq, List.not_mem_nil, false_imp_iff, implies_true, List.Pairwise.nil, and_true]
    at hsep
  obtain ⟨⟨hBS, hBO, hBC, hBT, hBV⟩, ⟨hSO, hSC, hST, hSV⟩, ⟨hOC, hOT, hOV⟩, -, -⟩ := hsep
  have hOB : separate Orbit B := hBO.symm
  have hSB : separate Spin B := hBS.symm
  have hOS : separate Orbit Spin := hSO.symm
  unfold lab3Frame
  rw [matrixAt_mat4mult, matrixAt_mat4mult, matrixAt_mat4mult, matrixAt_mat4mult,
    matrixAt_mat4mult, matrixAt_mat4rotY_other _ _ _ Orbit B _ hOB,
    matrixAt_mat4rotY_other _ _ _ Spin B _ hSB, matrixAt_mat4identity, one_mul]
  simp only [matrixAt_mat4mult_other _ _ _ B View hBV, matrixAt_mat4mult_other _ _ _ B Orbit hBO,
    matrixAt_mat4mult_other _ _ _ B Trans hBT, matrixAt_mat4mult_other _ _ _ B Spin hBS,
    matrixAt_mat4mult_other _ _ _ B Scale hBC,
    matrixAt_mat4rotY_other _ _ _ Orbit View _ hOV, matrixAt_mat4rotY_other _ _ _ Orbit Trans _ hOT,
    matrixAt_mat4rotY_other _ _ _ Orbit Spin _ hOS, matrixAt_mat4rotY_other _ _ _ Orbit Scale _ hOC,
    matrixAt_mat4rotY_other _ _ _ Spin View _ hSV, matrixAt_mat4rotY_other _ _ _ Spin Trans _ hST,
    matrixAt_mat4rotY_other _ _ _ Spin Scale _ hSC,
    matrixAt_mat4identity_other _ B View hBV, matrixAt_mat4identity_other _ B Trans hBT,
    matrixAt_mat4identity_other _ B Scale hBC]
  rw [matrixAt_mat4rotY_indep cos sin _ m Orbit t,
    matrixAt_mat4rotY_indep cos sin (mat4identity m B) m Spin (t * 1.5)]

/-- Passes of the lab3 loop change no cell outside `B`, `Spin` and `Orbit`. -/
theorem lab3Frames_frame {α : Type} [Field α] (cos sin : α → α)
    (B Spin Orbit Scale Trans View : Nat) (times : List α) (m : Mem α) (a : Nat)
    (hB : a < B ∨ B + 16 ≤ a) (hS : a < Spin ∨ Spin + 16 ≤ a)
    (hO : a < Orbit ∨ Orbit + 16 ≤ a) :
    times.foldl (fun mem time => lab3Frame cos sin mem B Spin Orbit Scale Trans View time) m a
      = m a := by
  induction times generalizing m with
  | nil => rfl
  | cons t ts ih =>
    rw [List.foldl_cons, ih, lab3Frame_frame cos sin m B Spin Orbit Scale Trans View t a hB hS hO]

/-- At the start of every pass of the lab3 loop a buffer `M` separate from
`B`, `Spin` and `Orbit` holds the matrix the set-up left in it. -/
theorem matrixAt_lab3Run {α : Type} [Field α] (cos sin : α → α) (p : α) (m : Mem α)
    (B Spin Orbit Scale Trans View : Nat) (times : List α) (M : Nat)
    (hB : separate B M) (hS : separate Spin M) (hO : separate Orbit M) :
    matrixAt (lab3Run cos sin p m B Spin Orbit Scale Trans View times) M
      = matrixAt (lab3Setup cos sin p m Scale Trans View) M := by
  unfold separate at hB hS hO
  exact matrixAt_congr _ _ M M (fun i hi =>
    lab3Frames_frame cos sin B Spin Orbit Scale Trans View times _ (M + i)
      (by omega) (by omega) (by omega))

/-- The matrices the lab3 set-up leaves in `View`, `Trans` and `Scale`. -/
theorem matrixAt_lab3Setup {α : Type} [Field α] (cos sin : α → α) (p : α) (m : Mem α)
    (Scale Trans View : Nat) (hCT : separate Scale Trans) (hCV : separate Scale View)
    (hTV : separate Trans View) :
    matrixAt (lab3Setup cos sin p m Scale Trans View) View
        = matrixAt (mat4rotX cos sin m View (-p)) View
      ∧ matrixAt (lab3Setup cos sin p m Scale Trans View) Trans
        = matrixAt (mat4translate m Trans 0.5 0.0 0.0) Trans
      ∧ matrixAt (lab3Setup cos sin p m Scale Trans View) Scale
        = matrixAt (mat4scale m Scale 0.2) Scale := by
  unfold lab3Setup
  refine ⟨matrixAt_mat4rotX_indep cos sin _ m View (-p), ?_, ?_⟩
  · rw [matrixAt_mat4rotX_other cos sin _ View Trans _ hTV.symm]
    exact matrixAt_mat4translate_indep _ m Trans _ _ _
  · rw [matrixAt_mat4rotX_other cos sin _ View Scale _ hCV.symm,
      matrixAt_mat4translate_other _ Trans Scale _ _ _ hCT.symm]

/-- C11: at every pass of the main loop of lab3, whatever the elapsed times of
the earlier passes, the matrix left in `B` (the buffer that is uploaded) is
the left-to-right matrix product `View * Orbit * Trans * Spin * Scale`, with
`View = mat4rotX(-pi/4)`, `Orbit = mat4rotY(t)`,
`Trans = mat4translate(0.5, 0, 0)`, `Spin = mat4rotY(1.5*t)` and
`Scale = mat4scale(0.2)`, for the six buffers being distinct arrays (exact
real arithmetic). -/
theorem lab3_frame_product (m : Mem ℝ) (B Spin Orbit Scale Trans View : Nat)
    (times : List ℝ) (t : ℝ)
    (hsep : List.Pairwise separate [B, Spin, Orbit, Scale, Trans, View]) :
    matrixAt (lab3Frame Real.cos Real.sin
        (lab3Run Real.cos Real.sin (Real.pi / 4) m B Spin Orbit Scale Trans View times)
        B Spin Orbit Scale Trans View t) B
      = matrixAt (mat4rotX Real.cos Real.sin m View (-(Real.pi / 4))) View
        * matrixAt (mat4rotY Real.cos Real.sin m Orbit t) Orbit
        * matrixAt (mat4translate m Trans 0.5 0 0) Trans
        * matrixAt (mat4rotY Real.cos Real.sin m Spin (1.5 * t)) Spin
        * matrixAt (mat4scale m Scale 0.2) Scale := by
  rw [lab3Frame_matrix Real.cos Real.sin _ B Spin Orbit Scale Trans View t hsep]
  simp only [List.pairwise_cons, List.mem_cons, List.mem_singleton, forall_eq_or_imp,
    forall_eq, List.not_mem_nil, false_imp_iff, implies_true, List.Pairwise.nil, and_true]
    at hsep
  obtain ⟨⟨hBS, hBO, hBC, hBT, hBV⟩, ⟨hSO, hSC, hST, hSV⟩, ⟨hOC, hOT, hOV⟩, ⟨hCT, hCV⟩, hTV⟩ :=
    hsep
  obtain ⟨hV, hT, hC⟩ :=
    matrixAt_lab3Setup Real.cos Real.sin (Real.pi / 4) m Scale Trans View hCT hCV hTV
  rw [matrixAt_lab3Run _ _ _ m B Spin Orbit Scale Trans View times View hBV hSV hOV,
    matrixAt_lab3Run _ _ _ m B Spin Orbit Scale Trans View times Trans hBT hST hOT,
    matrixAt_lab3Run _ _ _ m B Spin Orbit Scale Trans View times Scale hBC hSC hOC,
    hV, hT, hC, matrixAt_mat4rotY_indep Real.cos Real.sin _ m Orbit t,
    matrixAt_mat4rotY_indep Real.cos Real.sin _ m Spin (t * 1.5)]
  have h0 : (0.0 : ℝ) = 0 := by norm_num
  rw [h0, mul_comm t 1.5]

/-- Witness for C11: zero memory, the buffers at 0, 16, 32, 48, 64 and 80, two
earlier passes at times 0.5 and 1, and the pass at time 2. -/
theorem lab3_frame_product_witness :
    matrixAt (lab3Frame Real.cos Real.sin
        (lab3Run Real.cos Real.sin (Real.pi / 4) (fun _ => 0) 0 16 32 48 64 80 [0.5, 1])
        0 16 32 48 64 80 2) 0
      = matrixAt (mat4rotX Real.cos Real.sin (fun _ => 0) 80 (-(Real.pi / 4))) 80
        * matrixAt (mat4rotY Real.cos Real.sin (fun _ => 0) 32 2) 32
        * matrixAt (mat4translate (fun _ => 0) 64 0.5 0 0) 64
        * matrixAt (mat4rotY Real.cos Real.sin (fun _ => 0) 16 (1.5 * 2)) 16
        * matrixAt (mat4scale (fun _ => 0) 48 0.2) 48 :=
  lab3_frame_product (fun _ => 0) 0 16 32 48 64 80 [0.5, 1] 2 (by decide)

end GLprimer
